import Mathlib

/-!
Verification of the SQLite endpoint repository
(src/server/storage/providers/sqlite/repositories/endpoint.go).

The repository operates over one table.  We embed the store as a list of
typed rows plus the next auto-assigned row id, and embed each repository
operation as a function threading an explicit `World` (committed store,
optional active transaction, open prepared-statement handles, and a log of
executed statements).  Fallible external steps (begin, prepare, exec,
last-insert-id, commit) are driven by an explicit `Faults` record so that
every exit path of the Go code is a reachable branch of the embedding.

The transaction coordinator (`storage.TryToBegin`, `storage.TryToCommit`,
`storage.TryToRollback`), the entity mapper (`mapping.ToEndpoint`,
`mapping.ToEndpoints`) and `utils.JoinUintSlice` are code of this
repository that is not under src/; they are modelled from the spec where
noted on each definition.
-/

namespace Beagle

/-- An endpoint entity; mirrors `notification.Endpoint` as used by the
repository (id, name, url, method, headers columns).  The spec fixes the
identifier as an unsigned integer, so `id : Nat`. -/
structure Endpoint where
  id : Nat
  name : List Char
  url : List Char
  method : List Char
  headers : List Char
deriving DecidableEq, Repr

/-- Mirrors `storage.EndpointQuery` as consumed by `Find`: a name pattern
and a pagination window (`Take`, `Skip` are Go ints). -/
structure EndpointQuery where
  name : List Char
  take : Int
  skip : Int
deriving DecidableEq, Repr

/-- Match mode of the compiled name condition: `LIKE ?` or `= ?`
(endpoint.go lines 81 and 83). -/
inductive NameCond
  | like
  | eq
deriving DecidableEq, Repr

/-- The compiled form of the `Find` statement: optional name condition
with its bound parameter, and optional pagination window with its bound
parameters.  The query text is derived by `CompiledFind.text` and the
bound parameter list by `CompiledFind.args`. -/
structure CompiledFind where
  cond : Option (NameCond × List Char)
  page : Option (Int × Int)
deriving DecidableEq, Repr

/-- A bound statement parameter. -/
inductive Value
  | str (s : List Char)
  | int (i : Int)
deriving DecidableEq, Repr

/-- Statements executed against the store, recorded in the world log. -/
inductive Stmt
  | selectById (id : Nat)
  | findStmt (c : CompiledFind)
  | countStmt
  | insertStmt (name url method headers : List Char)
  | updateStmt (name url method headers : List Char) (id : Nat)
  | deleteById (id : Nat)
  | deleteManyStmt (ids : List Nat)
deriving DecidableEq, Repr

/-- Mirrors `strings.HasPrefix(s, "*")`. -/
def hasPrefixStar (s : List Char) : Bool :=
  s.head? == some '*'

/-- Mirrors `strings.HasSuffix(s, "*")`. -/
def hasSuffixStar (s : List Char) : Bool :=
  s.getLast? == some '*'

/-- Mirrors `strings.Replace(arg, "*", "", -1)`: every asterisk is
removed. -/
def stripStars (s : List Char) : List Char :=
  s.filter (fun c => c ≠ '*')

/-- Compile the `Find` statement from the optional filter, mirroring
endpoint.go lines 62 to 99: a non-empty name selects `LIKE`
(with the asterisks removed and percent signs added according to the
marker positions) or exact equality; `Take > 0` adds the pagination
window. -/
def buildFindQuery (query : Option EndpointQuery) : CompiledFind :=
  match query with
  | none => { cond := none, page := none }
  | some q =>
    let cond : Option (NameCond × List Char) :=
      if q.name ≠ [] then
        let startsWith := hasPrefixStar q.name
        let endsWith := hasSuffixStar q.name
        let arg := q.name
        if startsWith || endsWith then
          let arg := stripStars arg
          let arg :=
            if startsWith && endsWith then '%' :: (arg ++ ['%'])
            else if endsWith then arg ++ ['%']
            else '%' :: arg
          some (NameCond.like, arg)
        else
          some (NameCond.eq, arg)
      else none
    let page : Option (Int × Int) :=
      if q.take > 0 then some (q.take, q.skip) else none
    { cond := cond, page := page }

/-- Text of `endpointSelectQuery` with the table name substituted. -/
def endpointSelectText (table : String) : String :=
  "SELECT id, name, url, method, headers FROM " ++ table

/-- The statement text determined by the match-mode tag and the paging
flag alone; the name pattern does not occur as an argument, so it cannot
occur in the text. -/
def findTextOf (table : String) (mode : Option NameCond) (paged : Bool) : String :=
  endpointSelectText table ++
    (match mode with
     | some NameCond.like => " WHERE name LIKE ?"
     | some NameCond.eq => " WHERE name = ?"
     | none => "") ++
    " ORDER BY id" ++
    (if paged then " LIMIT ? OFFSET ?" else "")

/-- The match-mode tag of a compiled condition. -/
def condModeTag (c : Option (NameCond × List Char)) : Option NameCond :=
  c.map (fun x => x.1)

/-- The text the repository prepares for a compiled `Find` statement. -/
def CompiledFind.text (table : String) (c : CompiledFind) : String :=
  findTextOf table (condModeTag c.cond) c.page.isSome

/-- The bound parameters of a compiled `Find` statement, in binding
order: name argument first (if any), then limit and offset (if paged);
mirrors the `args` appends at lines 86 and 95. -/
def CompiledFind.args (c : CompiledFind) : List Value :=
  (match c.cond with
   | some (_, a) => [Value.str a]
   | none => []) ++
  (match c.page with
   | some (t, s) => [Value.int t, Value.int s]
   | none => [])

/-- SQL LIKE semantics for the generated patterns: a percent sign
matches any (possibly empty) sequence of characters, any other pattern
character matches itself.  (The generated patterns contain no
underscore wildcard; ASCII case folding of SQLite LIKE is not modelled,
no claim depends on it.) -/
def likeMatch : List Char → List Char → Bool
  | [], s => s.isEmpty
  | p :: ps, s =>
    if p = '%' then
      (List.range (s.length + 1)).any (fun k => likeMatch ps (s.drop k))
    else
      match s with
      | [] => false
      | c :: ss => p == c && likeMatch ps ss

/-- The table: its rows and the next auto-assigned row id. -/
structure DB where
  rows : List Endpoint
  nextId : Nat
deriving DecidableEq, Repr

/-- The ordering relation of ORDER BY id (ascending). -/
def idLE (a b : Endpoint) : Prop :=
  a.id ≤ b.id

instance : DecidableRel idLE :=
  fun a b => Nat.decLe a.id b.id

/-- ORDER BY id (ascending). -/
def sortById (rows : List Endpoint) : List Endpoint :=
  List.insertionSort idLE rows

/-- Row predicate of the compiled name condition. -/
def condMatch (cond : Option (NameCond × List Char)) (r : Endpoint) : Bool :=
  match cond with
  | none => true
  | some (NameCond.like, pat) => likeMatch pat r.name
  | some (NameCond.eq, pat) => r.name == pat

/-- Evaluation of the compiled `Find` statement against the store: WHERE
filter, ORDER BY id, then OFFSET and LIMIT (SQLite clamps a negative
offset to zero; the limit is only emitted when `Take > 0`). -/
def runFind (db : DB) (c : CompiledFind) : List Endpoint :=
  let rows := sortById (db.rows.filter (condMatch c.cond))
  match c.page with
  | none => rows
  | some (t, s) => (rows.drop s.toNat).take t.toNat

/-- An open transaction: the pending view of the store it will install on
commit, and the number of still-open prepared statements attached to it
(database/sql closes these when the transaction is resolved). -/
structure ActiveTx where
  pending : DB
  stmts : Nat
deriving DecidableEq, Repr

/-- The world threaded through an operation: the committed store, the
active transaction if one is open, the number of open connection-scoped
prepared statements, and the log of executed statements. -/
structure World where
  db : DB
  tx : Option ActiveTx
  openStmts : Nat
  execLog : List Stmt
deriving DecidableEq, Repr

/-- Error taxonomy of the spec, with the exact message of each
`errors.New` the repository raises. -/
inductive Err
  | invalidArgument (msg : String)
  | notFound
  | storeFailure
deriving DecidableEq, Repr

/-- Failure injection for the fallible external steps, so that every
error exit path of the Go code is a reachable branch. -/
structure Faults where
  beginFail : Bool
  prepareFail : Bool
  execFail : Bool
  lastIdFail : Bool
  commitFail : Bool
deriving DecidableEq, Repr

/-- The fault configuration in which every external step succeeds. -/
def noFaults : Faults :=
  { beginFail := false, prepareFail := false, execFail := false,
    lastIdFail := false, commitFail := false }

/-- Modelled from the spec: `storage.TryToBegin(db, tx)` (not under src/).
If the caller supplied a transaction it is returned unchanged with
`closeTx = false` (borrowed); otherwise a new transaction is opened
against the store and returned with `closeTx = true` (owned).
`txSupplied` states whether the caller passed a non-nil handle, which is
the active transaction of the world. -/
def tryToBegin (w : World) (txSupplied : Bool) (f : Faults) :
    Except Err (World × Bool) :=
  if txSupplied then Except.ok (w, false)
  else if f.beginFail then Except.error Err.storeFailure
  else Except.ok ({ w with tx := some { pending := w.db, stmts := 0 } }, true)

/-- Commit the active transaction: its pending view becomes the
committed store, and its prepared statements are closed with it. -/
def commitTx (w : World) : World :=
  match w.tx with
  | some t => { w with db := t.pending, tx := none }
  | none => w

/-- Roll back the active transaction: the committed store is untouched,
and the transaction and its prepared statements are gone. -/
def rollbackTx (w : World) : World :=
  { w with tx := none }

/-- Modelled from the spec: `storage.TryToCommit(tx, closeTx)` (not
under src/).  Commits iff the transaction is owned; a no-op for a
borrowed handle.  A failing commit still resolves the transaction
without installing its pending view. -/
def tryToCommit (w : World) (closeTx : Bool) (f : Faults) :
    Except Err Unit × World :=
  if closeTx then
    if f.commitFail then (Except.error Err.storeFailure, rollbackTx w)
    else (Except.ok (), commitTx w)
  else (Except.ok (), w)

/-- Modelled from the spec: `storage.TryToRollback(tx, err, closeTx)`
(not under src/).  Rolls back iff the transaction is owned, and always
returns the originating error. -/
def tryToRollback (w : World) (cause : Err) (closeTx : Bool) : Err × World :=
  if closeTx then (cause, rollbackTx w) else (cause, w)

/-- `tx.Prepare`: registers a statement on the active transaction.
Preparing on a missing transaction fails as database/sql does on a
resolved handle. -/
def txPrepare (w : World) (f : Faults) : Except Err World :=
  match w.tx with
  | none => Except.error Err.storeFailure
  | some t =>
    if f.prepareFail then Except.error Err.storeFailure
    else Except.ok { w with tx := some { t with stmts := t.stmts + 1 } }

/-- Store semantics of one executed statement over a store view; the
second component is the last-insert id (meaningful for inserts only).
An insert appends a row under the next auto-assigned id; an update
rewrites the columns of the row keyed by id; deletes remove the rows
keyed by the given ids; reads change nothing. -/
def applyStmt (s : Stmt) (db : DB) : DB × Nat :=
  match s with
  | Stmt.insertStmt n u m h =>
    ({ rows := db.rows ++ [{ id := db.nextId, name := n, url := u, method := m, headers := h }],
       nextId := db.nextId + 1 }, db.nextId)
  | Stmt.updateStmt n u m h i =>
    ({ db with rows := db.rows.map (fun r =>
        if r.id = i then { r with name := n, url := u, method := m, headers := h } else r) }, 0)
  | Stmt.deleteById i =>
    ({ db with rows := db.rows.filter (fun r => r.id ≠ i) }, 0)
  | Stmt.deleteManyStmt ids =>
    ({ db with rows := db.rows.filter (fun r => !(ids.contains r.id)) }, 0)
  | _ => (db, 0)

/-- `stmt.Exec` on a transaction-scoped statement: applies the statement
to the pending view of the active transaction and logs it. -/
def txExec (w : World) (s : Stmt) (f : Faults) : Except Err (World × Nat) :=
  match w.tx with
  | none => Except.error Err.storeFailure
  | some t =>
    if f.execFail then Except.error Err.storeFailure
    else
      let r := applyStmt s t.pending
      let t2 : ActiveTx := { t with pending := r.1 }
      Except.ok ({ w with tx := some t2, execLog := w.execLog ++ [s] }, r.2)

/-- `stmt.Close` on a connection-scoped statement handle. -/
def closeStmt (w : World) : World :=
  { w with openStmts := w.openStmts - 1 }

/-- Modelled from the spec: `utils.JoinUintSlice(ids, ", ")` (not under
src/), the textual id list interpolated into the DeleteMany statement. -/
def joinUintSlice (ids : List Nat) (sep : String) : String :=
  String.intercalate sep (ids.map (fun i => toString i))

/-- Text of the statement DeleteMany prepares (endpoint.go lines 271 to
277). -/
def deleteManyText (table : String) (ids : List Nat) : String :=
  "DELETE FROM " ++ table ++ " WHERE id IN (" ++ joinUintSlice ids ", " ++ ")"

/-- Outcome of an operation that can also panic (Go runtime panic, such
as a nil pointer dereference). -/
inductive Outcome (α : Type)
  | ok (a : α)
  | err (e : Err)
  | panicked
deriving DecidableEq, Repr

/-- Modelled from the spec: `mapping.ToEndpoint` (not under src/), the
entity mapper for a single row lookup: the mapped entity when a row
matched, NotFound when none did, the scan failure otherwise.  In the
typed embedding rows already are entities. -/
def toEndpointRow (row : Option Endpoint) : Except Err Endpoint :=
  match row with
  | some r => Except.ok r
  | none => Except.error Err.notFound

/-- Modelled from the spec: `mapping.ToEndpoints(rows, take)` (not under
src/), the entity mapper over a row set: maps every returned row; the
second argument is only a capacity hint. -/
def toEndpoints (rows : List Endpoint) (take : Int) : List Endpoint :=
  rows

/-- `Get` (endpoint.go lines 34 to 56): reject id 0, prepare the
single-row select (closed by defer on every later exit), query the row
keyed by id and map it. -/
def get (w : World) (id : Nat) (f : Faults) : Except Err Endpoint × World :=
  if id = 0 then
    (Except.error (Err.invalidArgument "id must be greater than 0"), w)
  else if f.prepareFail then (Except.error Err.storeFailure, w)
  else
    let w1 := { w with openStmts := w.openStmts + 1 }
    if f.execFail then (Except.error Err.storeFailure, closeStmt w1)
    else
      let w2 := { w1 with execLog := w1.execLog ++ [Stmt.selectById id] }
      (toEndpointRow (w2.db.rows.find? (fun r => r.id == id)), closeStmt w2)

/-- `Find` (endpoint.go lines 58 to 118): compile the statement from the
optional filter, prepare it (closed by defer on every later exit), run
it, then map the rows.  The call `mapping.ToEndpoints(rows, query.Take)`
at line 117 dereferences `query` unconditionally, so a nil filter
panics there after the query has already run. -/
def find (w : World) (query : Option EndpointQuery) (f : Faults) :
    Outcome (List Endpoint) × World :=
  let c := buildFindQuery query
  if f.prepareFail then (Outcome.err Err.storeFailure, w)
  else
    let w1 := { w with openStmts := w.openStmts + 1 }
    if f.execFail then (Outcome.err Err.storeFailure, closeStmt w1)
    else
      let w2 := { w1 with execLog := w1.execLog ++ [Stmt.findStmt c] }
      let rows := runFind w2.db c
      match query with
      | none => (Outcome.panicked, closeStmt w2)
      | some q => (Outcome.ok (toEndpoints rows q.take), closeStmt w2)

/-- `Count` (endpoint.go lines 120 to 142): prepare the count statement
(closed by defer), scan the count. -/
def count (w : World) (f : Faults) : Except Err Nat × World :=
  if f.prepareFail then (Except.error Err.storeFailure, w)
  else
    let w1 := { w with openStmts := w.openStmts + 1 }
    if f.execFail then (Except.error Err.storeFailure, closeStmt w1)
    else
      let w2 := { w1 with execLog := w1.execLog ++ [Stmt.countStmt] }
      (Except.ok w2.db.rows.length, closeStmt w2)

/-- `Create` (endpoint.go lines 144 to 189): reject a nil entity and an
already-persisted one, acquire the transaction, prepare and execute the
insert, read the generated id, commit if owned; roll back (if owned) and
propagate the cause on every failure after acquisition. -/
def create (w : World) (endpoint : Option Endpoint) (txSupplied : Bool)
    (f : Faults) : Except Err Nat × World :=
  match endpoint with
  | none => (Except.error (Err.invalidArgument "endpoint missed"), w)
  | some e =>
    if e.id > 0 then
      (Except.error (Err.invalidArgument "endpoint already created"), w)
    else
      match tryToBegin w txSupplied f with
      | Except.error err => (Except.error err, w)
      | Except.ok (w1, closeTx) =>
        match txPrepare w1 f with
        | Except.error err =>
          let r := tryToRollback w1 err closeTx
          (Except.error r.1, r.2)
        | Except.ok w2 =>
          match txExec w2 (Stmt.insertStmt e.name e.url e.method e.headers) f with
          | Except.error err =>
            let r := tryToRollback w2 err closeTx
            (Except.error r.1, r.2)
          | Except.ok (w3, lastId) =>
            if f.lastIdFail then
              let r := tryToRollback w3 Err.storeFailure closeTx
              (Except.error r.1, r.2)
            else
              match tryToCommit w3 closeTx f with
              | (Except.error err, w4) => (Except.error err, w4)
              | (Except.ok _, w4) => (Except.ok lastId, w4)

/-- `Update` (endpoint.go lines 191 to 223): reject a nil entity and id
0, acquire the transaction, prepare and execute the update keyed by id,
then resolve commit or rollback exactly as Create does.  The source
guard is kept verbatim (its second disjunct is vacuous for an unsigned
id). -/
def update (w : World) (endpoint : Option Endpoint) (txSupplied : Bool)
    (f : Faults) : Except Err Unit × World :=
  match endpoint with
  | none => (Except.error (Err.invalidArgument "endpoint missed"), w)
  | some e =>
    if e.id = 0 ∨ e.id < 0 then
      (Except.error (Err.invalidArgument "endpoint not created yet"), w)
    else
      match tryToBegin w txSupplied f with
      | Except.error err => (Except.error err, w)
      | Except.ok (w1, closeTx) =>
        match txPrepare w1 f with
        | Except.error err =>
          let r := tryToRollback w1 err closeTx
          (Except.error r.1, r.2)
        | Except.ok w2 =>
          match txExec w2 (Stmt.updateStmt e.name e.url e.method e.headers e.id) f with
          | Except.error err =>
            let r := tryToRollback w2 err closeTx
            (Except.error r.1, r.2)
          | Except.ok (w3, _) => tryToCommit w3 closeTx f

/-- `Delete` (endpoint.go lines 225 to 256): reject id 0, acquire the
transaction, prepare and execute the delete keyed by id, then resolve
commit or rollback. -/
def delete (w : World) (id : Nat) (txSupplied : Bool) (f : Faults) :
    Except Err Unit × World :=
  if id = 0 then
    (Except.error (Err.invalidArgument "id must be greater than 0"), w)
  else
    match tryToBegin w txSupplied f with
    | Except.error err => (Except.error err, w)
    | Except.ok (w1, closeTx) =>
      match txPrepare w1 f with
      | Except.error err =>
        let r := tryToRollback w1 err closeTx
        (Except.error r.1, r.2)
      | Except.ok w2 =>
        match txExec w2 (Stmt.deleteById id) f with
        | Except.error err =>
          let r := tryToRollback w2 err closeTx
          (Except.error r.1, r.2)
        | Except.ok (w3, _) => tryToCommit w3 closeTx f

/-- `DeleteMany` (endpoint.go lines 258 to 290): reject an empty id
list, acquire the transaction, prepare and execute the one statement
whose text lists every id, then resolve commit or rollback. -/
def deleteMany (w : World) (ids : List Nat) (txSupplied : Bool) (f : Faults) :
    Except Err Unit × World :=
  if ids.length = 0 then
    (Except.error (Err.invalidArgument "passed empty list of ids"), w)
  else
    match tryToBegin w txSupplied f with
    | Except.error err => (Except.error err, w)
    | Except.ok (w1, closeTx) =>
      match txPrepare w1 f with
      | Except.error err =>
        let r := tryToRollback w1 err closeTx
        (Except.error r.1, r.2)
      | Except.ok w2 =>
        match txExec w2 (Stmt.deleteManyStmt ids) f with
        | Except.error err =>
          let r := tryToRollback w2 err closeTx
          (Except.error r.1, r.2)
        | Except.ok (w3, _) => tryToCommit w3 closeTx f

/-- Well-formed store: the next auto-assigned id is positive and
strictly above every existing row id (the SQLite rowid discipline). -/
def DB.WF (db : DB) : Prop :=
  0 < db.nextId ∧ ∀ r ∈ db.rows, r.id < db.nextId

/-! Sample data used by witnesses and counterexamples. -/

/-- A sample empty store. -/
def sampleDB : DB :=
  { rows := [], nextId := 1 }

/-- A sample idle world over the empty store. -/
def sampleWorld : World :=
  { db := sampleDB, tx := none, openStmts := 0, execLog := [] }

/-- A sample endpoint with the given identifier. -/
def sampleEndpoint (i : Nat) : Endpoint :=
  { id := i, name := ['a'], url := ['u'], method := ['m'], headers := ['x'] }

/-- A sample world whose transaction is already open (the shape a caller
supplies for a borrowed handle). -/
def txWorld : World :=
  { db := sampleDB, tx := some { pending := sampleDB, stmts := 0 },
    openStmts := 0, execLog := [] }

/-- A sample three-row store (ids 1, 2, 3). -/
def threeRowDB : DB :=
  { rows := [sampleEndpoint 1, sampleEndpoint 2, sampleEndpoint 3], nextId := 4 }

/-- A sample idle world over the three-row store. -/
def threeRowWorld : World :=
  { db := threeRowDB, tx := none, openStmts := 0, execLog := [] }

/-! Claim theorems. -/

/-- C2: for every invalid input — Get(0) or Delete(0), Create with a nil
entity or an entity whose identifier is not 0, Update with a nil entity
or identifier 0, DeleteMany with an empty identifier list — the
operation fails with an InvalidArgument error (carrying the exact source
message) and returns the input world unchanged: no transaction is
opened, the store, the statement log and the open handles are
untouched. -/
theorem invalid_input_rejected_before_store :
    (∀ w f, get w 0 f =
      (Except.error (Err.invalidArgument "id must be greater than 0"), w)) ∧
    (∀ w b f, delete w 0 b f =
      (Except.error (Err.invalidArgument "id must be greater than 0"), w)) ∧
    (∀ w b f, create w none b f =
      (Except.error (Err.invalidArgument "endpoint missed"), w)) ∧
    (∀ w (e : Endpoint) b f, e.id ≠ 0 → create w (some e) b f =
      (Except.error (Err.invalidArgument "endpoint already created"), w)) ∧
    (∀ w b f, update w none b f =
      (Except.error (Err.invalidArgument "endpoint missed"), w)) ∧
    (∀ w (e : Endpoint) b f, e.id = 0 → update w (some e) b f =
      (Except.error (Err.invalidArgument "endpoint not created yet"), w)) ∧
    (∀ w b f, deleteMany w [] b f =
      (Except.error (Err.invalidArgument "passed empty list of ids"), w)) := by
  refine ⟨fun w f => by simp [get], fun w b f => by simp [delete],
    fun w b f => by simp [create], fun w e b f he => ?_,
    fun w b f => by simp [update], fun w e b f he => ?_,
    fun w b f => by simp [deleteMany]⟩
  · simp [create, Nat.pos_of_ne_zero he]
  · simp [update, he]

/-- C2 witness: the rejections evaluated at concrete inputs. -/
theorem invalid_input_rejected_before_store_witness :
    create sampleWorld (some (sampleEndpoint 5)) false noFaults =
      (Except.error (Err.invalidArgument "endpoint already created"), sampleWorld) ∧
    update sampleWorld (some (sampleEndpoint 0)) false noFaults =
      (Except.error (Err.invalidArgument "endpoint not created yet"), sampleWorld) ∧
    get sampleWorld 0 noFaults =
      (Except.error (Err.invalidArgument "id must be greater than 0"), sampleWorld) ∧
    deleteMany sampleWorld [] false noFaults =
      (Except.error (Err.invalidArgument "passed empty list of ids"), sampleWorld) :=
  ⟨invalid_input_rejected_before_store.2.2.2.1 sampleWorld (sampleEndpoint 5)
      false noFaults (by decide),
    invalid_input_rejected_before_store.2.2.2.2.2.1 sampleWorld (sampleEndpoint 0)
      false noFaults rfl,
    invalid_input_rejected_before_store.1 sampleWorld noFaults,
    invalid_input_rejected_before_store.2.2.2.2.2.2 sampleWorld false noFaults⟩

/-- C3: for every non-empty name pattern, a pattern with both leading
and trailing wildcard markers compiles to a LIKE condition whose bound
parameter is the pattern with the asterisks stripped and wrapped in
percent signs on both sides (substring match); only a trailing marker
yields a trailing percent sign (prefix match); only a leading marker a
leading percent sign (suffix match); no markers an equality condition
binding the pattern itself (exact match).  The statement text is a
function of the match-mode tag and the paging flag alone, so the
pattern is bound as a parameter and never concatenated into the text. -/
theorem find_pattern_match_modes :
    (∀ q : EndpointQuery, q.name ≠ [] →
      hasPrefixStar q.name = true → hasSuffixStar q.name = true →
      (buildFindQuery (some q)).cond =
        some (NameCond.like, '%' :: (stripStars q.name ++ ['%']))) ∧
    (∀ q : EndpointQuery, q.name ≠ [] →
      hasPrefixStar q.name = false → hasSuffixStar q.name = true →
      (buildFindQuery (some q)).cond =
        some (NameCond.like, stripStars q.name ++ ['%'])) ∧
    (∀ q : EndpointQuery, q.name ≠ [] →
      hasPrefixStar q.name = true → hasSuffixStar q.name = false →
      (buildFindQuery (some q)).cond =
        some (NameCond.like, '%' :: stripStars q.name)) ∧
    (∀ q : EndpointQuery, q.name ≠ [] →
      hasPrefixStar q.name = false → hasSuffixStar q.name = false →
      (buildFindQuery (some q)).cond = some (NameCond.eq, q.name)) ∧
    (∀ q table, (buildFindQuery (some q)).text table =
      findTextOf table (condModeTag (buildFindQuery (some q)).cond)
        (buildFindQuery (some q)).page.isSome) := by
  refine ⟨fun q hne hp hs => ?_, fun q hne hp hs => ?_,
    fun q hne hp hs => ?_, fun q hne hp hs => ?_, fun q table => rfl⟩ <;>
    simp [buildFindQuery, hne, hp, hs]

/-- C3 witness: the four match modes evaluated at the four concrete
patterns of the spec. -/
theorem find_pattern_match_modes_witness :
    (buildFindQuery (some { name := ['*', 'f', 'o', 'o', '*'], take := 0, skip := 0 })).cond =
      some (NameCond.like, ['%', 'f', 'o', 'o', '%']) ∧
    (buildFindQuery (some { name := ['f', 'o', 'o', '*'], take := 0, skip := 0 })).cond =
      some (NameCond.like, ['f', 'o', 'o', '%']) ∧
    (buildFindQuery (some { name := ['*', 'f', 'o', 'o'], take := 0, skip := 0 })).cond =
      some (NameCond.like, ['%', 'f', 'o', 'o']) ∧
    (buildFindQuery (some { name := ['f', 'o', 'o'], take := 0, skip := 0 })).cond =
      some (NameCond.eq, ['f', 'o', 'o']) :=
  ⟨find_pattern_match_modes.1 _ (by decide) (by decide) (by decide),
    find_pattern_match_modes.2.1 _ (by decide) (by decide) (by decide),
    find_pattern_match_modes.2.2.1 _ (by decide) (by decide) (by decide),
    find_pattern_match_modes.2.2.2.1 _ (by decide) (by decide) (by decide)⟩

/-- Helper: stripping asterisks leaves no asterisk. -/
theorem stripStars_all_no_star (s : List Char) :
    (stripStars s).all (fun c => c ≠ '*') = true := by
  simp only [stripStars, List.all_eq_true, List.mem_filter, decide_eq_true_eq]
  exact fun c hc => hc.2

/-- Helper: membership form of `stripStars_all_no_star`. -/
theorem stripStars_no_star {c : Char} {s : List Char} (h : c ∈ stripStars s) :
    c ≠ '*' := by
  have h2 := (List.mem_filter.mp h).2
  simpa using h2

/-- C10: whenever the pattern has a leading or trailing asterisk, every
asterisk of the pattern (interior ones included) is removed from the
bound parameter; whereas a non-empty pattern with neither a leading nor
a trailing asterisk compiles to an equality condition binding the
literal pattern, its interior asterisks intact. -/
theorem find_pattern_asterisk_stripping :
    (∀ q : EndpointQuery, q.name ≠ [] →
      (hasPrefixStar q.name || hasSuffixStar q.name) = true →
      ∃ a, (buildFindQuery (some q)).cond = some (NameCond.like, a) ∧
        a.all (fun c => c ≠ '*') = true) ∧
    (∀ q : EndpointQuery, q.name ≠ [] →
      hasPrefixStar q.name = false → hasSuffixStar q.name = false →
      (buildFindQuery (some q)).cond = some (NameCond.eq, q.name)) := by
  constructor
  · intro q hne hor
    cases hp : hasPrefixStar q.name <;> cases hs : hasSuffixStar q.name
    · simp [hp, hs] at hor
    · exact ⟨stripStars q.name ++ ['%'],
        by simp [buildFindQuery, hne, hp, hs],
        by simp [List.all_append, List.all_cons]
           exact fun x hx => stripStars_no_star hx⟩
    · exact ⟨'%' :: stripStars q.name,
        by simp [buildFindQuery, hne, hp, hs],
        by simp [List.all_cons]
           exact fun x hx => stripStars_no_star hx⟩
    · exact ⟨'%' :: (stripStars q.name ++ ['%']),
        by simp [buildFindQuery, hne, hp, hs],
        by simp [List.all_append, List.all_cons]
           exact fun x hx => stripStars_no_star hx⟩
  · intro q hne hp hs
    simp [buildFindQuery, hne, hp, hs]

/-- C10 witness: a pattern with leading, trailing and interior asterisks
loses every asterisk; an interior-only pattern is matched literally. -/
theorem find_pattern_asterisk_stripping_witness :
    (∃ a, (buildFindQuery (some { name := ['*', 'a', '*', 'b', '*'], take := 0, skip := 0 })).cond =
        some (NameCond.like, a) ∧ a.all (fun c => c ≠ '*') = true) ∧
    (buildFindQuery (some { name := ['a', '*', 'b'], take := 0, skip := 0 })).cond =
      some (NameCond.eq, ['a', '*', 'b']) :=
  ⟨find_pattern_asterisk_stripping.1 _ (by decide) (by decide),
    find_pattern_asterisk_stripping.2 _ (by decide) (by decide) (by decide)⟩

/-- C5: with take-count > 0 the compiled statement carries the bounded
window (limit = take, offset = skip) as its two last bound parameters,
and a successful Find returns at most take-count entities; with
take-count ≤ 0 no window is compiled, the skip-offset is ignored (the
compiled statement does not depend on it) and the evaluation is the
whole filtered, ordered row set. -/
theorem find_pagination_window :
    (∀ q : EndpointQuery, q.take > 0 →
      (buildFindQuery (some q)).page = some (q.take, q.skip) ∧
      (buildFindQuery (some q)).args =
        (match (buildFindQuery (some q)).cond with
         | some x => [Value.str x.2]
         | none => []) ++ [Value.int q.take, Value.int q.skip]) ∧
    (∀ w (q : EndpointQuery) f l, q.take > 0 →
      (find w (some q) f).1 = Outcome.ok l → (l.length : Int) ≤ q.take) ∧
    (∀ q : EndpointQuery, q.take ≤ 0 →
      (buildFindQuery (some q)).page = none ∧
      (∀ s, buildFindQuery (some { q with skip := s }) = buildFindQuery (some q)) ∧
      (∀ db, runFind db (buildFindQuery (some q)) =
        sortById (db.rows.filter (condMatch (buildFindQuery (some q)).cond)))) := by
  refine ⟨fun q ht => ⟨?_, ?_⟩, fun w q f l ht hfind => ?_, fun q ht => ⟨?_, fun s => ?_, fun db => ?_⟩⟩
  · simp [buildFindQuery, ht]
  · have hpage : (buildFindQuery (some q)).page = some (q.take, q.skip) := by
      simp [buildFindQuery, ht]
    rcases hc : (buildFindQuery (some q)).cond with _ | ⟨m, a⟩ <;>
      simp [CompiledFind.args, hpage, hc]
  · by_cases hp : f.prepareFail
    · simp [find, hp] at hfind
    · by_cases he : f.execFail
      · simp [find, hp, he] at hfind
      · have hfind2 : toEndpoints (runFind w.db (buildFindQuery (some q))) q.take = l := by
          simpa [find, hp, he] using hfind
        have hpage : (buildFindQuery (some q)).page = some (q.take, q.skip) := by
          simp [buildFindQuery, ht]
        have hlen : l.length ≤ q.take.toNat := by
          rw [← hfind2]
          simp only [toEndpoints, runFind, hpage, List.length_take]
          omega
        calc (l.length : Int) ≤ (q.take.toNat : Int) := Int.ofNat_le.mpr hlen
          _ = q.take := Int.toNat_of_nonneg (le_of_lt ht)
  · simp [buildFindQuery, not_lt.mpr ht]
  · simp [buildFindQuery, not_lt.mpr ht]
  · have hpage : (buildFindQuery (some q)).page = none := by
      simp [buildFindQuery, not_lt.mpr ht]
    simp [runFind, hpage]

/-- C5 witness: over five rows, take 2 skip 1 returns exactly two
entities, and the compiled window is (2, 1). -/
theorem find_pagination_window_witness :
    ((buildFindQuery (some { name := [], take := 2, skip := 1 })).page = some (2, 1) ∧
      (buildFindQuery (some { name := [], take := 2, skip := 1 })).args =
        [Value.int 2, Value.int 1]) ∧
    (([sampleEndpoint 2, sampleEndpoint 3] : List Endpoint).length : Int) ≤ 2 :=
  ⟨by
      have h := find_pagination_window.1 { name := [], take := 2, skip := 1 } (by decide)
      exact ⟨h.1, h.2⟩,
    find_pagination_window.2.1 threeRowWorld { name := [], take := 2, skip := 1 }
      noFaults [sampleEndpoint 2, sampleEndpoint 3] (by decide) (by decide)⟩

/-- C4 (code bug): Find with a nil filter.  The statement is compiled,
prepared and executed, but line 117 reads the Take field of the nil
filter unconditionally, so the call panics with a nil pointer
dereference instead of returning all rows ordered by identifier. -/
theorem find_nil_filter_panics :
    (find threeRowWorld none noFaults).1 = Outcome.panicked := by decide

/-- Helper: Create with a caller-supplied transaction neither commits
nor rolls it back — the transaction is still open on return — and the
committed store is untouched. -/
theorem create_borrowed_preserved (w : World) (e : Option Endpoint) (f : Faults)
    (t : ActiveTx) (htx : w.tx = some t) :
    (create w e true f).2.tx.isSome = true ∧ (create w e true f).2.db = w.db := by
  obtain ⟨db, tx, os, log⟩ := w
  replace htx : tx = some t := htx
  subst htx
  rcases e with _ | e
  · simp [create]
  · by_cases hid : e.id > 0
    · simp [create, hid]
    · rcases f with ⟨bf, pf, ef, lf, cf⟩
      cases pf <;> cases ef <;> cases lf <;>
        simp [create, hid, tryToBegin, txPrepare, txExec, tryToRollback,
          tryToCommit, applyStmt]

/-- Helper: Update with a caller-supplied transaction neither commits
nor rolls it back, and the committed store is untouched. -/
theorem update_borrowed_preserved (w : World) (e : Option Endpoint) (f : Faults)
    (t : ActiveTx) (htx : w.tx = some t) :
    (update w e true f).2.tx.isSome = true ∧ (update w e true f).2.db = w.db := by
  obtain ⟨db, tx, os, log⟩ := w
  replace htx : tx = some t := htx
  subst htx
  rcases e with _ | e
  · simp [update]
  · by_cases h0 : e.id = 0
    · simp [update, h0]
    · rcases f with ⟨bf, pf, ef, lf, cf⟩
      cases pf <;> cases ef <;> cases lf <;>
        simp [update, h0, tryToBegin, txPrepare, txExec, tryToRollback,
          tryToCommit, applyStmt]

/-- Helper: Delete with a caller-supplied transaction neither commits
nor rolls it back, and the committed store is untouched. -/
theorem delete_borrowed_preserved (w : World) (i : Nat) (f : Faults)
    (t : ActiveTx) (htx : w.tx = some t) :
    (delete w i true f).2.tx.isSome = true ∧ (delete w i true f).2.db = w.db := by
  obtain ⟨db, tx, os, log⟩ := w
  replace htx : tx = some t := htx
  subst htx
  by_cases hid : i = 0
  · simp [delete, hid]
  · rcases f with ⟨bf, pf, ef, lf, cf⟩
    cases pf <;> cases ef <;> cases lf <;>
      simp [delete, hid, tryToBegin, txPrepare, txExec, tryToRollback,
        tryToCommit, applyStmt]

/-- Helper: DeleteMany with a caller-supplied transaction neither
commits nor rolls it back, and the committed store is untouched. -/
theorem deleteMany_borrowed_preserved (w : World) (ids : List Nat) (f : Faults)
    (t : ActiveTx) (htx : w.tx = some t) :
    (deleteMany w ids true f).2.tx.isSome = true ∧
      (deleteMany w ids true f).2.db = w.db := by
  obtain ⟨db, tx, os, log⟩ := w
  replace htx : tx = some t := htx
  subst htx
  by_cases hlen : ids.length = 0
  · simp [deleteMany, hlen]
  · rcases f with ⟨bf, pf, ef, lf, cf⟩
    cases pf <;> cases ef <;> cases lf <;>
      simp [deleteMany, hlen, tryToBegin, txPrepare, txExec, tryToRollback,
        tryToCommit, applyStmt]

/-- Helper: Create invoked without a caller transaction resolves the
transaction it opened on every exit path — no transaction is open on
return — and never touches the connection-scoped statement count. -/
theorem create_owned_resolved (w : World) (e : Option Endpoint) (f : Faults)
    (htx : w.tx = none) :
    (create w e false f).2.tx = none ∧
      (create w e false f).2.openStmts = w.openStmts := by
  obtain ⟨db, tx, os, log⟩ := w
  replace htx : tx = none := htx
  subst htx
  rcases e with _ | e
  · simp [create]
  · by_cases hid : e.id > 0
    · simp [create, hid]
    · rcases f with ⟨bf, pf, ef, lf, cf⟩
      cases bf <;> cases pf <;> cases ef <;> cases lf <;> cases cf <;>
        simp [create, hid, tryToBegin, txPrepare, txExec, tryToRollback,
          tryToCommit, commitTx, rollbackTx, applyStmt]

/-- Helper: Update invoked without a caller transaction resolves the
transaction it opened on every exit path and never touches the
connection-scoped statement count. -/
theorem update_owned_resolved (w : World) (e : Option Endpoint) (f : Faults)
    (htx : w.tx = none) :
    (update w e false f).2.tx = none ∧
      (update w e false f).2.openStmts = w.openStmts := by
  obtain ⟨db, tx, os, log⟩ := w
  replace htx : tx = none := htx
  subst htx
  rcases e with _ | e
  · simp [update]
  · by_cases h0 : e.id = 0
    · simp [update, h0]
    · rcases f with ⟨bf, pf, ef, lf, cf⟩
      cases bf <;> cases pf <;> cases ef <;> cases lf <;> cases cf <;>
        simp [update, h0, tryToBegin, txPrepare, txExec, tryToRollback,
          tryToCommit, commitTx, rollbackTx, applyStmt]

/-- Helper: Delete invoked without a caller transaction resolves the
transaction it opened on every exit path and never touches the
connection-scoped statement count. -/
theorem delete_owned_resolved (w : World) (i : Nat) (f : Faults)
    (htx : w.tx = none) :
    (delete w i false f).2.tx = none ∧
      (delete w i false f).2.openStmts = w.openStmts := by
  obtain ⟨db, tx, os, log⟩ := w
  replace htx : tx = none := htx
  subst htx
  by_cases hid : i = 0
  · simp [delete, hid]
  · rcases f with ⟨bf, pf, ef, lf, cf⟩
    cases bf <;> cases pf <;> cases ef <;> cases lf <;> cases cf <;>
      simp [delete, hid, tryToBegin, txPrepare, txExec, tryToRollback,
        tryToCommit, commitTx, rollbackTx, applyStmt]

/-- Helper: DeleteMany invoked without a caller transaction resolves
the transaction it opened on every exit path and never touches the
connection-scoped statement count. -/
theorem deleteMany_owned_resolved (w : World) (ids : List Nat) (f : Faults)
    (htx : w.tx = none) :
    (deleteMany w ids false f).2.tx = none ∧
      (deleteMany w ids false f).2.openStmts = w.openStmts := by
  obtain ⟨db, tx, os, log⟩ := w
  replace htx : tx = none := htx
  subst htx
  by_cases hlen : ids.length = 0
  · simp [deleteMany, hlen]
  · rcases f with ⟨bf, pf, ef, lf, cf⟩
    cases bf <;> cases pf <;> cases ef <;> cases lf <;> cases cf <;>
      simp [deleteMany, hlen, tryToBegin, txPrepare, txExec, tryToRollback,
        tryToCommit, commitTx, rollbackTx, applyStmt]

/-- C1: for every mutating operation and every exit path (every fault
configuration): with a caller-supplied (borrowed) transaction the
operation never commits or rolls it back — the transaction is still
open on return and the committed store is untouched; without one
(owned) no open transaction remains on return, whatever the exit
path. -/
theorem mutating_tx_ownership :
    (∀ w e f t, w.tx = some t →
      (create w e true f).2.tx.isSome = true ∧ (create w e true f).2.db = w.db) ∧
    (∀ w e f t, w.tx = some t →
      (update w e true f).2.tx.isSome = true ∧ (update w e true f).2.db = w.db) ∧
    (∀ w i f t, w.tx = some t →
      (delete w i true f).2.tx.isSome = true ∧ (delete w i true f).2.db = w.db) ∧
    (∀ w ids f t, w.tx = some t →
      (deleteMany w ids true f).2.tx.isSome = true ∧
        (deleteMany w ids true f).2.db = w.db) ∧
    (∀ w e f, w.tx = none → (create w e false f).2.tx = none) ∧
    (∀ w e f, w.tx = none → (update w e false f).2.tx = none) ∧
    (∀ w i f, w.tx = none → (delete w i false f).2.tx = none) ∧
    (∀ w ids f, w.tx = none → (deleteMany w ids false f).2.tx = none) :=
  ⟨fun w e f t htx => create_borrowed_preserved w e f t htx,
    fun w e f t htx => update_borrowed_preserved w e f t htx,
    fun w i f t htx => delete_borrowed_preserved w i f t htx,
    fun w ids f t htx => deleteMany_borrowed_preserved w ids f t htx,
    fun w e f htx => (create_owned_resolved w e f htx).1,
    fun w e f htx => (update_owned_resolved w e f htx).1,
    fun w i f htx => (delete_owned_resolved w i f htx).1,
    fun w ids f htx => (deleteMany_owned_resolved w ids f htx).1⟩

/-- C1 witness: the ownership discipline evaluated at concrete worlds,
one borrowed and one owned case per operation, including a failing exit
path. -/
theorem mutating_tx_ownership_witness :
    ((create txWorld (some (sampleEndpoint 0)) true noFaults).2.tx.isSome = true ∧
      (create txWorld (some (sampleEndpoint 0)) true noFaults).2.db = txWorld.db) ∧
    ((update txWorld (some (sampleEndpoint 2)) true
        { noFaults with execFail := true }).2.tx.isSome = true ∧
      (update txWorld (some (sampleEndpoint 2)) true
        { noFaults with execFail := true }).2.db = txWorld.db) ∧
    ((delete txWorld 1 true noFaults).2.tx.isSome = true ∧
      (delete txWorld 1 true noFaults).2.db = txWorld.db) ∧
    ((deleteMany txWorld [1, 2] true noFaults).2.tx.isSome = true ∧
      (deleteMany txWorld [1, 2] true noFaults).2.db = txWorld.db) ∧
    (create sampleWorld (some (sampleEndpoint 0)) false noFaults).2.tx = none ∧
    (update sampleWorld (some (sampleEndpoint 2)) false
      { noFaults with execFail := true }).2.tx = none ∧
    (delete sampleWorld 1 false noFaults).2.tx = none ∧
    (deleteMany sampleWorld [1, 2] false noFaults).2.tx = none :=
  ⟨mutating_tx_ownership.1 txWorld (some (sampleEndpoint 0)) noFaults _ rfl,
    mutating_tx_ownership.2.1 txWorld (some (sampleEndpoint 2)) _ _ rfl,
    mutating_tx_ownership.2.2.1 txWorld 1 noFaults _ rfl,
    mutating_tx_ownership.2.2.2.1 txWorld [1, 2] noFaults _ rfl,
    mutating_tx_ownership.2.2.2.2.1 sampleWorld (some (sampleEndpoint 0)) noFaults rfl,
    mutating_tx_ownership.2.2.2.2.2.1 sampleWorld (some (sampleEndpoint 2)) _ rfl,
    mutating_tx_ownership.2.2.2.2.2.2.1 sampleWorld 1 noFaults rfl,
    mutating_tx_ownership.2.2.2.2.2.2.2 sampleWorld [1, 2] noFaults rfl⟩

/-- C9 counterexample: Create on a borrowed transaction returns with
the statement it prepared still open (the transaction-scoped open
statement count grew from 0 to 1 across the call), so not every
prepared statement handle obtained during an operation is released
before the operation returns. -/
theorem stmt_release_counterexample :
    txWorld.tx.map ActiveTx.stmts = some 0 ∧
    (create txWorld (some (sampleEndpoint 0)) true noFaults).2.tx.map
      ActiveTx.stmts = some 1 := by decide

/-- C9 amended: the read operations (Get, Find, Count) release their
connection-scoped prepared statement on every exit path; a mutating
operation invoked without a caller transaction releases every statement
it prepared before returning, because resolving the owned transaction
closes its statements; only a mutating operation on a borrowed
transaction leaves its statement open for the caller to release when
the transaction is resolved. -/
theorem stmt_handles_released_amended :
    (∀ w i f, (get w i f).2.openStmts = w.openStmts ∧ (get w i f).2.tx = w.tx) ∧
    (∀ w q f, (find w q f).2.openStmts = w.openStmts ∧ (find w q f).2.tx = w.tx) ∧
    (∀ w f, (count w f).2.openStmts = w.openStmts ∧ (count w f).2.tx = w.tx) ∧
    (∀ w e f, w.tx = none → (create w e false f).2.tx = none ∧
      (create w e false f).2.openStmts = w.openStmts) ∧
    (∀ w e f, w.tx = none → (update w e false f).2.tx = none ∧
      (update w e false f).2.openStmts = w.openStmts) ∧
    (∀ w i f, w.tx = none → (delete w i false f).2.tx = none ∧
      (delete w i false f).2.openStmts = w.openStmts) ∧
    (∀ w ids f, w.tx = none → (deleteMany w ids false f).2.tx = none ∧
      (deleteMany w ids false f).2.openStmts = w.openStmts) := by
  refine ⟨fun w i f => ?_, fun w q f => ?_, fun w f => ?_,
    fun w e f htx => create_owned_resolved w e f htx,
    fun w e f htx => update_owned_resolved w e f htx,
    fun w i f htx => delete_owned_resolved w i f htx,
    fun w ids f htx => deleteMany_owned_resolved w ids f htx⟩
  · by_cases h0 : i = 0
    · simp [get, h0]
    · by_cases hp : f.prepareFail
      · simp [get, h0, hp]
      · by_cases he : f.execFail <;> simp [get, h0, hp, he, closeStmt]
  · by_cases hp : f.prepareFail
    · simp [find, hp]
    · by_cases he : f.execFail
      · simp [find, hp, he, closeStmt]
      · rcases q with _ | q <;> simp [find, hp, he, closeStmt]
  · by_cases hp : f.prepareFail
    · simp [count, hp]
    · by_cases he : f.execFail <;> simp [count, hp, he, closeStmt]

/-- C9 witness: the amended release discipline evaluated at concrete
inputs: a read on a populated store and an owned-transaction mutation. -/
theorem stmt_handles_released_amended_witness :
    ((get threeRowWorld 2 noFaults).2.openStmts = threeRowWorld.openStmts ∧
      (get threeRowWorld 2 noFaults).2.tx = threeRowWorld.tx) ∧
    ((find threeRowWorld none noFaults).2.openStmts = threeRowWorld.openStmts ∧
      (find threeRowWorld none noFaults).2.tx = threeRowWorld.tx) ∧
    ((delete threeRowWorld 2 false noFaults).2.tx = none ∧
      (delete threeRowWorld 2 false noFaults).2.openStmts = threeRowWorld.openStmts) :=
  ⟨stmt_handles_released_amended.1 threeRowWorld 2 noFaults,
    stmt_handles_released_amended.2.1 threeRowWorld none noFaults,
    stmt_handles_released_amended.2.2.2.2.2.1 threeRowWorld 2 noFaults rfl⟩

/-- Helper: mapping a function that fixes every member of a list leaves
the list unchanged. -/
theorem map_eq_self_of_mem {α : Type} {g : α → α} {l : List α}
    (h : ∀ x ∈ l, g x = x) : l.map g = l := by
  induction l with
  | nil => rfl
  | cons a as ih =>
    simp only [List.map_cons, h a (List.mem_cons_self a as),
      ih (fun x hx => h x (List.mem_cons_of_mem a hx))]

/-- Helper: looking up a freshly appended row by its id finds it when
every previous row has a strictly smaller id. -/
theorem find?_id_append_new (rows : List Endpoint) (nid : Nat) (r : Endpoint)
    (hlt : ∀ x ∈ rows, x.id < nid) (hr : r.id = nid) :
    (rows ++ [r]).find? (fun x => x.id == nid) = some r := by
  rw [List.find?_append]
  have hnone : rows.find? (fun x => x.id == nid) = none := by
    rw [List.find?_eq_none]
    intro x hx
    simp only [beq_iff_eq]
    exact Nat.ne_of_lt (hlt x hx)
  simp [hnone, List.find?_cons, hr]

/-- C6: creating an entity whose identifier is 0 over a well-formed
store succeeds, returns the next auto-assigned identifier (strictly
positive), and a subsequent Get with that identifier returns an entity
with that identifier and the created name, url, method and headers. -/
theorem create_get_roundtrip (w : World) (e : Endpoint)
    (hwf : w.db.WF) (htx : w.tx = none) (hid : e.id = 0) :
    ∃ w2, create w (some e) false noFaults = (Except.ok w.db.nextId, w2) ∧
      0 < w.db.nextId ∧
      ∃ w3, get w2 w.db.nextId noFaults =
        (Except.ok { id := w.db.nextId, name := e.name, url := e.url,
                     method := e.method, headers := e.headers }, w3) := by
  obtain ⟨⟨rows, nid⟩, tx, os, log⟩ := w
  replace htx : tx = none := htx
  subst htx
  obtain ⟨eid, en, eu, em, eh⟩ := e
  replace hid : eid = 0 := hid
  subst hid
  obtain ⟨hpos, hlt⟩ := hwf
  replace hpos : 0 < nid := hpos
  replace hlt : ∀ x ∈ rows, x.id < nid := hlt
  have hne : nid ≠ 0 := Nat.pos_iff_ne_zero.mp hpos
  have hcreate : create ⟨⟨rows, nid⟩, none, os, log⟩
      (some ⟨0, en, eu, em, eh⟩) false noFaults =
      (Except.ok nid,
        ⟨⟨rows ++ [⟨nid, en, eu, em, eh⟩], nid + 1⟩, none, os,
          log ++ [Stmt.insertStmt en eu em eh]⟩) := rfl
  have hfind : (rows ++ [(⟨nid, en, eu, em, eh⟩ : Endpoint)]).find?
      (fun x => x.id == nid) = some ⟨nid, en, eu, em, eh⟩ :=
    find?_id_append_new rows nid _ hlt rfl
  have hget : get ⟨⟨rows ++ [⟨nid, en, eu, em, eh⟩], nid + 1⟩, none, os,
      log ++ [Stmt.insertStmt en eu em eh]⟩ nid noFaults =
      (Except.ok ⟨nid, en, eu, em, eh⟩,
        ⟨⟨rows ++ [⟨nid, en, eu, em, eh⟩], nid + 1⟩, none, os,
          (log ++ [Stmt.insertStmt en eu em eh]) ++ [Stmt.selectById nid]⟩) := by
    simp only [get, if_neg hne]
    simp [noFaults, toEndpointRow, hfind, closeStmt]
  exact ⟨_, hcreate, hpos, _, hget⟩

/-- C6 witness: the round trip evaluated over the three-row store. -/
theorem create_get_roundtrip_witness :
    ∃ w2, create threeRowWorld
        (some { id := 0, name := ['n'], url := ['u'], method := ['m'], headers := ['x'] })
        false noFaults = (Except.ok threeRowWorld.db.nextId, w2) ∧
      0 < threeRowWorld.db.nextId ∧
      ∃ w3, get w2 threeRowWorld.db.nextId noFaults =
        (Except.ok { id := threeRowWorld.db.nextId, name := ['n'], url := ['u'],
                     method := ['m'], headers := ['x'] }, w3) :=
  create_get_roundtrip threeRowWorld
    { id := 0, name := ['n'], url := ['u'], method := ['m'], headers := ['x'] }
    ⟨by decide, by decide⟩ rfl rfl

/-- C7: updating an entity whose non-zero identifier matches no stored
row succeeds with no error and leaves the committed store — every row
and the next identifier — unchanged. -/
theorem update_missing_id_noop (w : World) (e : Endpoint)
    (htx : w.tx = none) (hid : e.id ≠ 0)
    (hmiss : ∀ r ∈ w.db.rows, r.id ≠ e.id) :
    ∃ w2, update w (some e) false noFaults = (Except.ok (), w2) ∧
      w2.db = w.db := by
  obtain ⟨⟨rows, nid⟩, tx, os, log⟩ := w
  replace htx : tx = none := htx
  subst htx
  obtain ⟨eid, en, eu, em, eh⟩ := e
  replace hid : eid ≠ 0 := hid
  replace hmiss : ∀ r ∈ rows, r.id ≠ eid := hmiss
  obtain ⟨k, rfl⟩ := Nat.exists_eq_succ_of_ne_zero hid
  refine ⟨_, rfl, ?_⟩
  have hmap : rows.map (fun r => if r.id = k + 1 then
      { r with name := en, url := eu, method := em, headers := eh } else r) = rows :=
    map_eq_self_of_mem (fun x hx => if_neg (hmiss x hx))
  simp [commitTx, applyStmt, hmap]

/-- C7 witness: updating a missing identifier over the three-row store
returns success and the store is unchanged. -/
theorem update_missing_id_noop_witness :
    ∃ w2, update threeRowWorld (some (sampleEndpoint 9)) false noFaults =
      (Except.ok (), w2) ∧ w2.db = threeRowWorld.db :=
  update_missing_id_noop threeRowWorld (sampleEndpoint 9) rfl (by decide) (by decide)

/-- C8: DeleteMany over a non-empty identifier list executes exactly one
delete statement carrying the whole list (the log grows by that single
statement), removes exactly the rows whose identifiers are listed, and
leaves every other row and the next identifier untouched. -/
theorem deleteMany_removes_exactly (w : World) (ids : List Nat)
    (htx : w.tx = none) (hne : ids ≠ []) :
    ∃ w2, deleteMany w ids false noFaults = (Except.ok (), w2) ∧
      w2.execLog = w.execLog ++ [Stmt.deleteManyStmt ids] ∧
      w2.db.nextId = w.db.nextId ∧
      w2.db.rows = w.db.rows.filter (fun r => !(ids.contains r.id)) ∧
      (∀ r, r ∈ w2.db.rows ↔ (r ∈ w.db.rows ∧ r.id ∉ ids)) := by
  obtain ⟨⟨rows, nid⟩, tx, os, log⟩ := w
  replace htx : tx = none := htx
  subst htx
  rcases ids with _ | ⟨i, ids2⟩
  · exact absurd rfl hne
  refine ⟨_, rfl, rfl, rfl, rfl, ?_⟩
  intro r
  simp [commitTx, applyStmt, List.mem_filter, List.elem_eq_mem, List.mem_cons,
    not_or]

/-- C8 witness: deleting ids 1 and 3 from the three-row store removes
exactly those rows in one statement and keeps row 2. -/
theorem deleteMany_removes_exactly_witness :
    ∃ w2, deleteMany threeRowWorld [1, 3] false noFaults = (Except.ok (), w2) ∧
      w2.execLog = threeRowWorld.execLog ++ [Stmt.deleteManyStmt [1, 3]] ∧
      w2.db.nextId = threeRowWorld.db.nextId ∧
      w2.db.rows = threeRowWorld.db.rows.filter (fun r => !([1, 3].contains r.id)) ∧
      (∀ r, r ∈ w2.db.rows ↔ (r ∈ threeRowWorld.db.rows ∧ r.id ∉ [1, 3])) :=
  deleteMany_removes_exactly threeRowWorld [1, 3] rfl (by decide)

end Beagle
